import Mathlib

/-!
# Kreyòl IA internationalisation manager (`static/i18n.js`)

A shallow embedding of the `I18nManager` class and of the static `translations`
object, followed by theorems about key resolution, language switching,
language detection and page synchronisation.

JavaScript objects written as object literals are modelled by the list of their
own properties in insertion order *together with* the properties they inherit
from `Object.prototype`: a property read `obj[key]` first looks among the own
properties and then along the prototype chain.
-/

namespace KreyolIA

/-! ## JavaScript values and completions -/

/-- The JavaScript values that a property read can produce in this program.
Objects other than the locale tables (functions and objects reached through the
prototype chain) are identified by a reference name and are otherwise opaque.
Numbers are restricted to integers: the program only tests values for
truthiness and passes them on. -/
inductive JSValue where
  | undefined
  | null
  | boolean (b : Bool)
  | number (n : Int)
  | string (s : String)
  | object (ref : String)
deriving DecidableEq, Repr

/-- JavaScript `ToBoolean`. -/
def JSValue.truthy : JSValue → Bool
  | .undefined => false
  | .null => false
  | .boolean b => b
  | .number n => n != 0
  | .string s => s != ""
  | .object _ => true

/-- Exceptions raised by the language itself. -/
inductive JSError where
  | typeError
deriving DecidableEq, Repr

/-- Outcome of evaluating a call: it returns a value or throws. -/
inductive Completion (α : Type) where
  | normal (value : α)
  | throw (error : JSError)
deriving DecidableEq, Repr

/-- Host behaviour that lies outside the program: the result of reading property
`key` of the built-in object that `Object.prototype[name]` evaluates to (for an
object literal `o`, `o["constructor"]` is the function `Object`, `o["toString"]`
is `Object.prototype.toString`, `o["__proto__"]` is `Object.prototype`, ...).
Such a read may return any value and may throw: the getters of the restricted
function properties `caller` and `arguments` throw a `TypeError`. -/
structure Host where
  get : String → String → Completion JSValue

/-! ## The static `translations` object -/

/-- Own properties of one locale table: translation key and localized string. -/
abbrev Table := List (String × String)

/-- Own properties of the `translations` object: locale code and its table. -/
abbrev Translations := List (String × Table)

/-- Names of the properties every object literal inherits from
`Object.prototype`. Each of them evaluates to a function, except `__proto__`,
which evaluates to `Object.prototype` itself; all are truthy. -/
def objectPrototypeKeys : List String :=
  ["constructor", "__defineGetter__", "__defineSetter__", "hasOwnProperty",
   "__lookupGetter__", "__lookupSetter__", "isPrototypeOf", "propertyIsEnumerable",
   "toString", "valueOf", "__proto__", "toLocaleString"]

/-- The `ht` (Haitian Creole) table of `translations`, own properties in source order. -/
def translations_ht : Table := [
  ("nav.home", "Akèy"),
  ("nav.voices", "Vwa"),
  ("nav.text_to_speech", "Tèks an Paròl"),
  ("nav.voice_changer", "Chanje Vwa"),
  ("nav.sound_effects", "Efè Son"),
  ("nav.voice_isolator", "Izole Vwa"),
  ("nav.studio", "Estidyo"),
  ("nav.music", "Mizik"),
  ("nav.dubbing", "Doublaj"),
  ("nav.speech_to_text", "Paròl an Tèks"),
  ("nav.audio_native", "Odyo Natif"),
  ("page.studio", "Estidyo"),
  ("page.welcome", "Byenvini"),
  ("btn.upload", "Telechaje"),
  ("btn.new_project", "Nouvo pwojè vid"),
  ("btn.create", "Kreye"),
  ("btn.download", "Telechaje"),
  ("btn.cancel", "Anile"),
  ("btn.save", "Sove"),
  ("btn.back", "Retounen"),
  ("audio.title", "Odyo"),
  ("audio.new_audiobook", "Nouvo liv odyo"),
  ("audio.new_audiobook_desc", "Kòmanse de zewo oswa enpòte fichye"),
  ("audio.create_podcast", "Kreye yon podcast"),
  ("audio.create_podcast_desc", "Jenere otomatikman podcast soti nan dokiman"),
  ("audio.url_to_audio", "URL an odyo"),
  ("audio.url_to_audio_desc", "Kreye vwadeyò soti nan nenpòt paj wèb"),
  ("audio.ai_script", "Jeneratè Skrip IA"),
  ("audio.ai_script_desc", "Jenere yon skrip soti nan yon pwonp"),
  ("video.title", "Videyo"),
  ("video.new_voiceover", "Nouvo vwadeyò videyo"),
  ("video.new_voiceover_desc", "Ajoute paròl nan videyo ou yo"),
  ("video.add_sfx", "Ajoute efè son ak mizik"),
  ("video.add_sfx_desc", "Ajoute vwadeyò, mizik, ak efè son"),
  ("video.add_captions", "Ajoute soutit"),
  ("video.add_captions_desc", "Soutit otomatik pou videyo ou"),
  ("video.remove_noise", "Retire bri background"),
  ("video.remove_noise_desc", "Netwaye videyo ki gen bri"),
  ("video.fix_voiceover", "Korije erè vwadeyò"),
  ("video.fix_voiceover_desc", "Korije erè ak kòreksyon paròl"),
  ("video.ai_soundtrack", "Jeneratè Mizik IA"),
  ("video.ai_soundtrack_desc", "Jenere mizik pou videyo ou otomatikman"),
  ("common.loading", "Chaje..."),
  ("common.error", "Erè"),
  ("common.success", "Siksè"),
  ("common.search", "Chèche"),
  ("common.recent_projects", "Pwojè Resan"),
  ("common.no_projects", "Poko gen pwojè. Kreye premye pwojè w anwo a!"),
  ("common.creative_tools", "Zouti Kreyatif"),
  ("common.products", "Pwodui"),
  ("common.new", "Nouvo"),
  ("form.text", "Tèks"),
  ("form.voice", "Vwa"),
  ("form.language", "Lang"),
  ("form.file", "Fichye"),
  ("form.title", "Tit"),
  ("form.description", "Deskripsyon"),
  ("msg.upload_success", "Fichye telechaje avèk siksè!"),
  ("msg.processing", "Ap pwosese..."),
  ("msg.complete", "Konplete!"),
  ("msg.error_occurred", "Yon erè rive")]

/-- The `en` (English) table of `translations`, own properties in source order. -/
def translations_en : Table := [
  ("nav.home", "Home"),
  ("nav.voices", "Voices"),
  ("nav.text_to_speech", "Text to Speech"),
  ("nav.voice_changer", "Voice Changer"),
  ("nav.sound_effects", "Sound Effects"),
  ("nav.voice_isolator", "Voice Isolator"),
  ("nav.studio", "Studio"),
  ("nav.music", "Music"),
  ("nav.dubbing", "Dubbing"),
  ("nav.speech_to_text", "Speech to Text"),
  ("nav.audio_native", "Audio Native"),
  ("page.studio", "Studio"),
  ("page.welcome", "Welcome"),
  ("btn.upload", "Upload"),
  ("btn.new_project", "New Empty Project"),
  ("btn.create", "Create"),
  ("btn.download", "Download"),
  ("btn.cancel", "Cancel"),
  ("btn.save", "Save"),
  ("btn.back", "Back"),
  ("audio.title", "Audio"),
  ("audio.new_audiobook", "New Audiobook"),
  ("audio.new_audiobook_desc", "Start from scratch or import file"),
  ("audio.create_podcast", "Create a Podcast"),
  ("audio.create_podcast_desc", "Generate podcast automatically from document"),
  ("audio.url_to_audio", "URL to Audio"),
  ("audio.url_to_audio_desc", "Create voiceover from any web page"),
  ("audio.ai_script", "AI Script Generator"),
  ("audio.ai_script_desc", "Generate a script from a prompt"),
  ("video.title", "Video"),
  ("video.new_voiceover", "New Video Voiceover"),
  ("video.new_voiceover_desc", "Add voice to your videos"),
  ("video.add_sfx", "Add SFX and Music"),
  ("video.add_sfx_desc", "Add voiceover, music, and sound effects"),
  ("video.add_captions", "Add Captions"),
  ("video.add_captions_desc", "Automatic captions for your video"),
  ("video.remove_noise", "Remove Background Noise"),
  ("video.remove_noise_desc", "Clean noisy videos"),
  ("video.fix_voiceover", "Fix Voiceover Errors"),
  ("video.fix_voiceover_desc", "Fix errors with speech correction"),
  ("video.ai_soundtrack", "AI Soundtrack Generator"),
  ("video.ai_soundtrack_desc", "Generate music for your video automatically"),
  ("common.loading", "Loading..."),
  ("common.error", "Error"),
  ("common.success", "Success"),
  ("common.search", "Search"),
  ("common.recent_projects", "Recent Projects"),
  ("common.no_projects", "No projects yet. Create your first project above!"),
  ("common.creative_tools", "Creative Tools"),
  ("common.products", "Products"),
  ("common.new", "New"),
  ("form.text", "Text"),
  ("form.voice", "Voice"),
  ("form.language", "Language"),
  ("form.file", "File"),
  ("form.title", "Title"),
  ("form.description", "Description"),
  ("msg.upload_success", "File uploaded successfully!"),
  ("msg.processing", "Processing..."),
  ("msg.complete", "Complete!"),
  ("msg.error_occurred", "An error occurred")]

/-- The `fr` (French) table of `translations`, own properties in source order. -/
def translations_fr : Table := [
  ("nav.home", "Accueil"),
  ("nav.voices", "Voix"),
  ("nav.text_to_speech", "Texte vers Parole"),
  ("nav.voice_changer", "Changeur de Voix"),
  ("nav.sound_effects", "Effets Sonores"),
  ("nav.voice_isolator", "Isolateur de Voix"),
  ("nav.studio", "Studio"),
  ("nav.music", "Musique"),
  ("nav.dubbing", "Doublage"),
  ("nav.speech_to_text", "Parole vers Texte"),
  ("nav.audio_native", "Audio Natif"),
  ("page.studio", "Studio"),
  ("page.welcome", "Bienvenue"),
  ("btn.upload", "Télécharger"),
  ("btn.new_project", "Nouveau Projet Vide"),
  ("btn.create", "Créer"),
  ("btn.download", "Télécharger"),
  ("btn.cancel", "Annuler"),
  ("btn.save", "Sauvegarder"),
  ("btn.back", "Retour"),
  ("audio.title", "Audio"),
  ("audio.new_audiobook", "Nouveau Livre Audio"),
  ("audio.new_audiobook_desc", "Commencer de zéro ou importer un fichier"),
  ("audio.create_podcast", "Créer un Podcast"),
  ("audio.create_podcast_desc", "Générer automatiquement podcast depuis document"),
  ("audio.url_to_audio", "URL vers Audio"),
  ("audio.url_to_audio_desc", "Créer voix off depuis n\x27importe quelle page web"),
  ("audio.ai_script", "Générateur de Script IA"),
  ("audio.ai_script_desc", "Générer un script depuis un prompt"),
  ("video.title", "Vidéo"),
  ("video.new_voiceover", "Nouvelle Voix Off Vidéo"),
  ("video.new_voiceover_desc", "Ajouter une voix à vos vidéos"),
  ("video.add_sfx", "Ajouter Effets et Musique"),
  ("video.add_sfx_desc", "Ajouter voix off, musique et effets sonores"),
  ("video.add_captions", "Ajouter Sous-titres"),
  ("video.add_captions_desc", "Sous-titres automatiques pour votre vidéo"),
  ("video.remove_noise", "Supprimer Bruit de Fond"),
  ("video.remove_noise_desc", "Nettoyer vidéos bruyantes"),
  ("video.fix_voiceover", "Corriger Erreurs Voix Off"),
  ("video.fix_voiceover_desc", "Corriger erreurs avec correction vocale"),
  ("video.ai_soundtrack", "Générateur Bande Son IA"),
  ("video.ai_soundtrack_desc", "Générer musique pour votre vidéo automatiquement"),
  ("common.loading", "Chargement..."),
  ("common.error", "Erreur"),
  ("common.success", "Succès"),
  ("common.search", "Rechercher"),
  ("common.recent_projects", "Projets Récents"),
  ("common.no_projects", "Pas encore de projets. Créez votre premier projet ci-dessus!"),
  ("common.creative_tools", "Outils Créatifs"),
  ("common.products", "Produits"),
  ("common.new", "Nouveau"),
  ("form.text", "Texte"),
  ("form.voice", "Voix"),
  ("form.language", "Langue"),
  ("form.file", "Fichier"),
  ("form.title", "Titre"),
  ("form.description", "Description"),
  ("msg.upload_success", "Fichier téléchargé avec succès!"),
  ("msg.processing", "Traitement en cours..."),
  ("msg.complete", "Terminé!"),
  ("msg.error_occurred", "Une erreur s\x27est produite")]

/-- The module-level constant `translations`. -/
def translations : Translations :=
  [("ht", translations_ht), ("en", translations_en), ("fr", translations_fr)]

/-- What `this.translations[lang]` evaluates to. -/
inductive LocaleRef where
  | table (tbl : Table)
  | builtin (name : String)
  | undefined
deriving DecidableEq, Repr

/-- Property read `translations[lang]`: an own locale table, else a property
inherited from `Object.prototype`, else `undefined`. -/
def Translations.get (tr : Translations) (lang : String) : LocaleRef :=
  match tr.lookup lang with
  | some tbl => .table tbl
  | none => if lang ∈ objectPrototypeKeys then .builtin lang else .undefined

/-- Truthiness of `translations[lang]`: every object is truthy. -/
def LocaleRef.truthy : LocaleRef → Bool
  | .table _ => true
  | .builtin _ => true
  | .undefined => false

/-- Property read `table[key]` on a locale table: an own string, else a property
inherited from `Object.prototype`, else `undefined`. -/
def Table.get (tbl : Table) (key : String) : JSValue :=
  match tbl.lookup key with
  | some s => .string s
  | none => if key ∈ objectPrototypeKeys then .object key else .undefined

/-- Optional-chained read `ref?.[key]`. -/
def LocaleRef.getOpt (host : Host) : LocaleRef → String → Completion JSValue
  | .table tbl, key => .normal (tbl.get key)
  | .builtin name, key => host.get name key
  | .undefined, _ => .normal .undefined

/-! ## Browser environment -/

/-- The origin's `localStorage`: its key/value items. Reads and writes are taken
to succeed (no quota or security exception). -/
abbrev Storage := List (String × String)

/-- The call `localStorage.getItem(key)`; `none` is JavaScript `null`. -/
def Storage.getItem (s : Storage) (key : String) : Option String :=
  s.lookup key

/-- The call `localStorage.setItem(key, value)`. -/
def Storage.setItem (s : Storage) (key value : String) : Storage :=
  (key, value) :: s.filter (fun kv => kv.1 != key)

/-- The key under which the language preference is stored. -/
def storageKey : String := "kreyol_ia_lang"

/-- The two properties of `navigator` read by `detectLanguage`; `none` is
`undefined`. -/
structure Navigator where
  language : Option String
  userLanguage : Option String
deriving DecidableEq, Repr

/-- An element of the page: its three optional translation attributes and the
three content properties `updatePage` assigns. A content property holds the
value most recently assigned to it. -/
structure Element where
  dataI18n : Option String
  dataI18nPlaceholder : Option String
  dataI18nTitle : Option String
  textContent : JSValue
  placeholder : JSValue
  title : JSValue
deriving DecidableEq, Repr

/-- A `CustomEvent` dispatched on `window`, with its `detail.language`. -/
structure CustomEvent where
  type : String
  language : String
deriving DecidableEq, Repr

/-- A line written to the console. -/
inductive ConsoleEntry where
  | warn (message : String)
  | error (message : String)
deriving DecidableEq, Repr

/-- Fields of an `I18nManager` instance. -/
structure I18nManager where
  currentLang : String
  translations : Translations
deriving DecidableEq, Repr

/-- Everything the manager reads or writes: the instance itself, the storage,
the page (a list of elements in document order and `documentElement.lang`),
the events dispatched on `window` and the console. -/
structure World where
  i18n : I18nManager
  localStorage : Storage
  elements : List Element
  documentLang : String
  events : List CustomEvent
  console : List ConsoleEntry
deriving DecidableEq, Repr

/-! ## `I18nManager` -/

/-- The expression `saved && this.translations[saved]` tested by
`detectLanguage` and `loadFromLocalStorage`, where `thisTranslations` is the
current value of `this.translations` (`none` while it is still `undefined`).
The right operand is only evaluated for a truthy `saved`, and reading a
property of `undefined` throws. -/
def savedIsSupported (thisTranslations : Option Translations) (saved : Option String) :
    Completion Bool :=
  match saved with
  | none => .normal false
  | some code =>
    if code = "" then .normal false
    else
      match thisTranslations with
      | none => .throw .typeError
      | some tr => .normal (tr.get code).truthy

/-- The expression `browserLang.split('-')[0]`: the part of the tag before its
first hyphen. -/
def primarySubtag (browserLang : String) : String :=
  String.mk (browserLang.data.takeWhile (fun c => c != '-'))

/-- Method `detectLanguage()`. It reads `this.translations`, passed as
`thisTranslations` (`none` while the property is still `undefined`). -/
def I18nManager.detectLanguage (thisTranslations : Option Translations)
    (localStorage : Storage) (navigator : Navigator) : Completion String :=
  let saved := localStorage.getItem storageKey
  match savedIsSupported thisTranslations saved with
  | .throw e => .throw e
  | .normal true => .normal (saved.getD "")
  | .normal false =>
    -- navigator.language || navigator.userLanguage
    let browserLang : Option String :=
      match navigator.language with
      | some l => if l != "" then some l else navigator.userLanguage
      | none => navigator.userLanguage
    match browserLang with
    | none => .throw .typeError
    | some tag =>
      let lang := primarySubtag tag
      match thisTranslations with
      | none => .throw .typeError
      | some tr => if (tr.get lang).truthy then .normal lang else .normal "ht"

/-- Method `loadFromLocalStorage()`. -/
def I18nManager.loadFromLocalStorage (this : I18nManager) (localStorage : Storage) :
    Completion I18nManager :=
  let saved := localStorage.getItem storageKey
  match savedIsSupported (some this.translations) saved with
  | .throw e => .throw e
  | .normal true => .normal { this with currentLang := saved.getD "" }
  | .normal false => .normal this

/-- The class constructor, `new I18nManager(defaultLang)`; a call without
argument passes `"ht"`. Its first statement calls `detectLanguage()` before
`this.translations` has been assigned. -/
def I18nManager.constructor (localStorage : Storage) (navigator : Navigator)
    (defaultLang : String) : Completion I18nManager :=
  match I18nManager.detectLanguage none localStorage navigator with
  | .throw e => .throw e
  | .normal detected =>
    let this : I18nManager :=
      { currentLang := if detected != "" then detected else defaultLang,
        translations := KreyolIA.translations }
    this.loadFromLocalStorage localStorage

/-- Method `saveToLocalStorage()`. -/
def I18nManager.saveToLocalStorage (w : World) : World :=
  { w with localStorage := w.localStorage.setItem storageKey w.i18n.currentLang }

/-- Method `t(key)`: the completion of the call and the console lines it
writes. -/
def I18nManager.t (this : I18nManager) (host : Host) (key : String) :
    Completion JSValue × List ConsoleEntry :=
  match (this.translations.get this.currentLang).getOpt host key with
  | .throw e => (.throw e, [])
  | .normal translation =>
    if translation.truthy then (.normal translation, [])
    else
      match (this.translations.get "en").getOpt host key with
      | .throw e => (.throw e, [])
      | .normal fallback =>
        if fallback.truthy then (.normal fallback, [])
        else (.normal (.string key), [.warn ("Translation missing for key: " ++ key)])

/-- Method `getLanguage()`. -/
def I18nManager.getLanguage (this : I18nManager) : String :=
  this.currentLang

/-- The object literal `names` of `getLanguageName`. -/
def languageNames : Table :=
  [("ht", "Kreyòl Ayisyen"), ("en", "English"), ("fr", "Français")]

/-- The object literal `flags` of `getLanguageFlag`. -/
def languageFlags : Table :=
  [("ht", "🇭🇹"), ("en", "🇺🇸"), ("fr", "🇫🇷")]

/-- Method `getLanguageName(code)`: `names[code] || code`. -/
def I18nManager.getLanguageName (code : String) : JSValue :=
  let name := languageNames.get code
  if name.truthy then name else .string code

/-- Method `getLanguageFlag(code)`: `flags[code] || '🌍'`. -/
def I18nManager.getLanguageFlag (code : String) : JSValue :=
  let flag := languageFlags.get code
  if flag.truthy then flag else .string "🌍"

/-- The array index a property key denotes, if any: a canonical decimal numeral
below `2^32 - 1`. -/
def arrayIndex? (key : String) : Option Nat :=
  let cs := key.data
  if cs ≠ [] ∧ cs.all Char.isDigit ∧ (cs.head? ≠ some '0' ∨ cs.length = 1) then
    let n := cs.foldl (fun acc c => 10 * acc + (c.toNat - 48)) 0
    if n < 2 ^ 32 - 1 then some n else none
  else none

/-- The call `Object.keys(obj)` on an object given by its own properties: array
indices in ascending numeric order, then the other keys in insertion order. -/
def objectKeys {β : Type} (obj : List (String × β)) : List String :=
  let keys := obj.map Prod.fst
  ((keys.filterMap arrayIndex?).insertionSort (fun a b => a ≤ b)).map toString
    ++ keys.filter (fun k => (arrayIndex? k).isNone)

/-- One record of the array returned by `getAvailableLanguages`. -/
structure LanguageInfo where
  code : String
  name : JSValue
  flag : JSValue
deriving DecidableEq, Repr

/-- Method `getAvailableLanguages()`. -/
def I18nManager.getAvailableLanguages (this : I18nManager) : List LanguageInfo :=
  (objectKeys this.translations).map fun code =>
    { code := code,
      name := I18nManager.getLanguageName code,
      flag := I18nManager.getLanguageFlag code }

/-- One `querySelectorAll('[attr]').forEach(element => element.prop = this.t(key))`
pass of `updatePage` over the elements in document order: `attr` reads the
attribute (`none` when the element does not carry it) and `assign` sets the
property. The pass stops at the first call of `t` that throws. It yields the
elements after the pass, the console lines written and the completion. -/
def I18nManager.translateElements (this : I18nManager) (host : Host)
    (attr : Element → Option String) (assign : Element → JSValue → Element) :
    List Element → List Element × List ConsoleEntry × Completion Unit
  | [] => ([], [], .normal ())
  | element :: rest =>
    match attr element with
    | none =>
      let (rest', lines, c) := translateElements this host attr assign rest
      (element :: rest', lines, c)
    | some key =>
      match this.t host key with
      | (.throw e, lines) => (element :: rest, lines, .throw e)
      | (.normal value, lines) =>
        let (rest', lines', c) := translateElements this host attr assign rest
        (assign element value :: rest', lines ++ lines', c)

/-- Assignment `element.textContent = value`. -/
def Element.setTextContent (element : Element) (value : JSValue) : Element :=
  { element with textContent := value }

/-- Assignment `element.placeholder = value`. -/
def Element.setPlaceholder (element : Element) (value : JSValue) : Element :=
  { element with placeholder := value }

/-- Assignment `element.title = value`. -/
def Element.setTitle (element : Element) (value : JSValue) : Element :=
  { element with title := value }

/-- One pass of `updatePage` run on the world: the page and the console after
it, and its completion. -/
def I18nManager.translatePass (w : World) (host : Host)
    (attr : Element → Option String) (assign : Element → JSValue → Element) :
    World × Completion Unit :=
  let r := w.i18n.translateElements host attr assign w.elements
  ({ w with elements := r.1, console := w.console ++ r.2.1 }, r.2.2)

/-- Method `updatePage()`. An exception thrown by `t` inside a pass propagates
out of the method, leaving the page as updated so far. -/
def I18nManager.updatePage (w : World) (host : Host) : World × Completion Unit :=
  match I18nManager.translatePass w host Element.dataI18n Element.setTextContent with
  | (w1, .throw e) => (w1, .throw e)
  | (w1, .normal _) =>
    match I18nManager.translatePass w1 host Element.dataI18nPlaceholder
        Element.setPlaceholder with
    | (w2, .throw e) => (w2, .throw e)
    | (w2, .normal _) =>
      match I18nManager.translatePass w2 host Element.dataI18nTitle Element.setTitle with
      | (w3, .throw e) => (w3, .throw e)
      | (w3, .normal _) =>
        ({ w3 with
            documentLang := w3.i18n.currentLang,
            events := w3.events ++
              [{ type := "languageChanged", language := w3.i18n.currentLang }] },
          .normal ())

/-- Method `setLanguage(lang)`. -/
def I18nManager.setLanguage (w : World) (host : Host) (lang : String) :
    World × Completion Bool :=
  if !(w.i18n.translations.get lang).truthy then
    ({ w with console := w.console ++ [.error ("Language not supported: " ++ lang)] },
      .normal false)
  else
    let w := { w with i18n := { w.i18n with currentLang := lang } }
    let w := I18nManager.saveToLocalStorage w
    match I18nManager.updatePage w host with
    | (w, .throw e) => (w, .throw e)
    | (w, .normal _) => (w, .normal true)

/-! ## `LanguageSelector` (`language-selector.js`) -/

/-- The `options` argument of the `LanguageSelector` constructor; `none` is an
absent property. -/
structure SelectorOptions where
  style : Option String
  position : Option String
deriving DecidableEq, Repr

/-- One `<button class="lang-flag">` of the markup built by `renderFlags`. -/
structure FlagButton where
  active : Bool
  lang : String
  title : JSValue
  flag : JSValue
deriving DecidableEq, Repr

/-- One `<button class="lang-dropdown-item">` of the markup built by
`renderDropdown`; the check mark is shown exactly when the item is active. -/
structure DropdownItem where
  active : Bool
  lang : String
  flag : JSValue
  name : JSValue
deriving DecidableEq, Repr

/-- The markup a render assigns to `container.innerHTML`, as a tree instead of
a string. -/
inductive Markup where
  | flags (buttons : List FlagButton)
  | dropdown (currentFlag : JSValue) (currentName : JSValue) (items : List DropdownItem)
deriving DecidableEq, Repr

/-- The document as the widget sees it: the world of the language manager
(the global `i18n`, storage, translated elements, console); the elements that
carry an id, each with the markup a widget rendered into it (`none` before any
render); the ids of the `<style>` blocks appended to `<head>`; and the trace of
`addEventListener` calls as (target, event type). The ids of the mount points
are taken to differ from the ids the widget creates itself. -/
structure Page where
  world : World
  mounts : List (String × Option Markup)
  styleIds : List String
  listeners : List (String × String)
deriving DecidableEq, Repr

/-- Fields of a `LanguageSelector` instance: the container element, given by its
id (`none` is `null`), and the style found in `this.options`. -/
structure LanguageSelector where
  container : Option String
  style : String
  position : String
deriving DecidableEq, Repr

/-- Replace the markup of the first element with the given id. -/
def setMarkup (id : String) (html : Markup) :
    List (String × Option Markup) → List (String × Option Markup)
  | [] => []
  | m :: rest => if m.1 = id then (m.1, some html) :: rest else m :: setMarkup id html rest

/-- The assignment `this.container.innerHTML = html`. Assigning a property of
`null` throws. -/
def LanguageSelector.setInnerHTML (this : LanguageSelector) (page : Page) (html : Markup) :
    Page × Completion Unit :=
  match this.container with
  | none => (page, .throw .typeError)
  | some id => ({ page with mounts := setMarkup id html page.mounts }, .normal ())

/-- The style-block guard `document.getElementById(styleId)` followed by
`document.head.appendChild(style)`: shared shape of `addFlagStyles` and
`addDropdownStyles`. -/
def Page.addStyles (page : Page) (styleId : String) : Page :=
  if styleId ∈ page.styleIds ∨ (page.mounts.lookup styleId).isSome then page
  else { page with styleIds := page.styleIds ++ [styleId] }

/-- Method `addFlagStyles()`. -/
def LanguageSelector.addFlagStyles (page : Page) : Page :=
  page.addStyles "lang-selector-flags-styles"

/-- Method `addDropdownStyles()`. -/
def LanguageSelector.addDropdownStyles (page : Page) : Page :=
  page.addStyles "lang-selector-dropdown-styles"

/-- Whether some mount point currently holds dropdown markup, so that the
elements `lang-dropdown-btn` and `lang-dropdown-menu` exist. -/
def Page.hasDropdown (page : Page) : Bool :=
  page.mounts.any fun m =>
    match m.2 with
    | some (.dropdown _ _ _) => true
    | _ => false

/-- Method `setupDropdown()`. -/
def LanguageSelector.setupDropdown (page : Page) : Page :=
  if !page.hasDropdown then page
  else
    { page with
      listeners := page.listeners ++ [("lang-dropdown-btn", "click"), ("document", "click")] }

/-- Method `renderFlags(languages, currentLang)`. -/
def LanguageSelector.renderFlags (this : LanguageSelector) (page : Page)
    (languages : List LanguageInfo) (currentLang : String) : Page × Completion Unit :=
  let html := Markup.flags (languages.map fun lang =>
    { active := lang.code = currentLang, lang := lang.code, title := lang.name,
      flag := lang.flag })
  match this.setInnerHTML page html with
  | (page, .throw e) => (page, .throw e)
  | (page, .normal _) => (LanguageSelector.addFlagStyles page, .normal ())

/-- Method `renderDropdown(languages, currentLang)`. The template reads
`current.flag`, which throws when `find` returned `undefined`. -/
def LanguageSelector.renderDropdown (this : LanguageSelector) (page : Page)
    (languages : List LanguageInfo) (currentLang : String) : Page × Completion Unit :=
  match languages.find? (fun l => l.code = currentLang) with
  | none => (page, .throw .typeError)
  | some current =>
    let html := Markup.dropdown current.flag current.name (languages.map fun lang =>
      { active := lang.code = currentLang, lang := lang.code, flag := lang.flag,
        name := lang.name })
    match this.setInnerHTML page html with
    | (page, .throw e) => (page, .throw e)
    | (page, .normal _) =>
      (LanguageSelector.setupDropdown (LanguageSelector.addDropdownStyles page), .normal ())

/-- Method `render()`, reading the global `i18n` of the page. -/
def LanguageSelector.render (this : LanguageSelector) (page : Page) : Page × Completion Unit :=
  match this.container with
  | none =>
    ({ page with
        world := { page.world with
          console := page.world.console ++ [.error "Language selector container not found"] } },
      .normal ())
  | some _ =>
    let languages := page.world.i18n.getAvailableLanguages
    let currentLang := page.world.i18n.getLanguage
    if this.style = "flags" then this.renderFlags page languages currentLang
    else this.renderDropdown page languages currentLang

/-- Method `attachEventListeners()`: `this.container.addEventListener('click', ...)`.
Calling a method of `null` throws. -/
def LanguageSelector.attachEventListeners (this : LanguageSelector) (page : Page) :
    Page × Completion Unit :=
  match this.container with
  | none => (page, .throw .typeError)
  | some id => ({ page with listeners := page.listeners ++ [(id, "click")] }, .normal ())

/-- The class constructor, `new LanguageSelector(containerId, options)`. In
`this.options` the spread `...options` comes after the defaults, so a default
applies exactly when the property is absent. -/
def LanguageSelector.constructor (page : Page) (containerId : String)
    (options : SelectorOptions) : Page × Completion LanguageSelector :=
  let this : LanguageSelector :=
    { container := if (page.mounts.lookup containerId).isSome then some containerId else none,
      style := options.style.getD "dropdown",
      position := options.position.getD "top-right" }
  match this.render page with
  | (page, .throw e) => (page, .throw e)
  | (page, .normal _) =>
    match this.attachEventListeners page with
    | (page, .throw e) => (page, .throw e)
    | (page, .normal _) => (page, .normal this)

/-- A sequence of `setLanguage` calls, each on the world the previous one
left. -/
def I18nManager.setLanguages (w : World) (host : Host) : List String → World
  | [] => w
  | lang :: rest => I18nManager.setLanguages (I18nManager.setLanguage w host lang).1 host rest

/-! ## Specification vocabulary -/

/-- Whether `ref` is a built-in object inherited from `Object.prototype`. -/
def LocaleRef.isBuiltin : LocaleRef → Bool
  | .builtin _ => true
  | _ => false

/-- A manager whose active language does not resolve to a built-in object: the
language is a locale of the store, or `translations[currentLang]` is
`undefined`. -/
def I18nManager.resolvable (this : I18nManager) : Bool :=
  !(this.translations.get this.currentLang).isBuiltin

/-- The value `t(key)` returns, for stating results (`undefined` if it throws). -/
def I18nManager.tValue (this : I18nManager) (host : Host) (key : String) : JSValue :=
  match (this.t host key).1 with
  | .normal v => v
  | .throw _ => .undefined

/-- One element after a pass that completed: its property is `t(key)` when it
carries the attribute, and it is untouched otherwise. -/
def Element.translated (attr : Element → Option String) (assign : Element → JSValue → Element)
    (value : String → JSValue) (element : Element) : Element :=
  match attr element with
  | none => element
  | some key => assign element (value key)

/-- The three passes of `updatePage` as a function of the elements alone: the
elements after the last pass that ran, and the completion. -/
def I18nManager.syncElements (this : I18nManager) (host : Host) (es : List Element) :
    List Element × Completion Unit :=
  let r1 := this.translateElements host Element.dataI18n Element.setTextContent es
  match r1.2.2 with
  | .throw e => (r1.1, .throw e)
  | .normal _ =>
    let r2 := this.translateElements host Element.dataI18nPlaceholder
      Element.setPlaceholder r1.1
    match r2.2.2 with
    | .throw e => (r2.1, .throw e)
    | .normal _ =>
      let r3 := this.translateElements host Element.dataI18nTitle Element.setTitle r2.1
      (r3.1, r3.2.2)

/-- An element after a complete `updatePage()`: each of the three content
properties is `t(key)` when the element carries the matching attribute and is
untouched otherwise. -/
def Element.synchronized (value : String → JSValue) (element : Element) : Element :=
  { element with
    textContent := match element.dataI18n with
      | some key => value key
      | none => element.textContent,
    placeholder := match element.dataI18nPlaceholder with
      | some key => value key
      | none => element.placeholder,
    title := match element.dataI18nTitle with
      | some key => value key
      | none => element.title }

/-! ## Sample inputs -/

/-- A host on which every property read of a built-in object yields
`undefined`. -/
def quietHost : Host := ⟨fun _ _ => .normal .undefined⟩

/-- A host on which reading the restricted properties `caller` and `arguments`
of a built-in function throws a `TypeError`, as ECMAScript prescribes, and
every other read of a built-in yields `undefined`. -/
def restrictedHost : Host :=
  ⟨fun name key =>
    if name ≠ "__proto__" ∧ (key = "caller" ∨ key = "arguments") then .throw .typeError
    else .normal .undefined⟩

/-- A page with one translated heading and one input, active language `ht`,
empty storage. -/
def sampleWorld : World :=
  { i18n := { currentLang := "ht", translations := translations },
    localStorage := [],
    elements :=
      [{ dataI18n := some "nav.home", dataI18nPlaceholder := none, dataI18nTitle := none,
         textContent := .string "", placeholder := .undefined, title := .string "" },
       { dataI18n := none, dataI18nPlaceholder := some "common.search",
         dataI18nTitle := some "form.text",
         textContent := .string "", placeholder := .string "", title := .string "" }],
    documentLang := "",
    events := [],
    console := [] }

/-- The state `setLanguage("constructor")` leaves behind, on a page with one
element tagged `data-i18n="caller"`. -/
def inheritedLangWorld : World :=
  { i18n := { currentLang := "constructor", translations := translations },
    localStorage := [(storageKey, "constructor")],
    elements :=
      [{ dataI18n := some "nav.home", dataI18nPlaceholder := none, dataI18nTitle := none,
         textContent := .string "Akèy", placeholder := .undefined, title := .string "" },
       { dataI18n := some "caller", dataI18nPlaceholder := none, dataI18nTitle := none,
         textContent := .string "", placeholder := .undefined, title := .string "" }],
    documentLang := "ht",
    events := [],
    console := [] }

/-- The sample world with one empty mount point `language-selector`. -/
def samplePage : Page :=
  { world := sampleWorld,
    mounts := [("language-selector", none)],
    styleIds := [],
    listeners := [] }

/-- A store in which the fallback locale maps a key to the empty string. -/
def emptyFallbackStore : Translations :=
  [("ht", [("title", "Tit")]), ("en", [("title", "Title"), ("subtitle", "")])]

/-- A store in which the `ht` table lacks a key that the `en` table has. -/
def partialStore : Translations :=
  [("ht", [("title", "Tit")]), ("en", [("title", "Title"), ("subtitle", "Subtitle")])]

/-! ## Basic facts -/
theorem Storage.getItem_setItem (s : Storage) (key value : String) :
    (Storage.setItem s key value).getItem key = some value := by
  simp [Storage.setItem, Storage.getItem, List.lookup]

theorem en_not_inherited : "en" ∉ objectPrototypeKeys := by decide

theorem LocaleRef.getOpt_table (host : Host) (tbl : Table) (key : String) :
    (LocaleRef.table tbl).getOpt host key = .normal (tbl.get key) := rfl

theorem LocaleRef.getOpt_undefined (host : Host) (key : String) :
    LocaleRef.undefined.getOpt host key = .normal .undefined := rfl

theorem LocaleRef.getOpt_builtin (host : Host) (name key : String) :
    (LocaleRef.builtin name).getOpt host key = host.get name key := rfl

/-- The fallback read `this.translations['en']?.[key]` never throws. -/
theorem fallback_getOpt_normal (tr : Translations) (host : Host) (key : String) :
    ∃ v, (tr.get "en").getOpt host key = .normal v := by
  unfold Translations.get
  cases h : List.lookup "en" tr with
  | none => simp [en_not_inherited, LocaleRef.getOpt]
  | some tbl => simp [LocaleRef.getOpt]

/-- Method `t` once both reads have returned. -/
theorem t_of_reads (this : I18nManager) (host : Host) (key : String) (a b : JSValue)
    (ha : (this.translations.get this.currentLang).getOpt host key = .normal a)
    (hb : (this.translations.get "en").getOpt host key = .normal b) :
    this.t host key =
      if a.truthy then (.normal a, [])
      else if b.truthy then (.normal b, [])
      else (.normal (.string key), [.warn ("Translation missing for key: " ++ key)]) := by
  unfold I18nManager.t
  rw [ha, hb]

theorem resolvable_read (this : I18nManager) (host : Host) (key : String)
    (h : this.resolvable = true) :
    ∃ v, (this.translations.get this.currentLang).getOpt host key = .normal v := by
  unfold I18nManager.resolvable at h
  cases hc : this.translations.get this.currentLang with
  | builtin name => simp [hc, LocaleRef.isBuiltin] at h
  | table tbl => exact ⟨_, rfl⟩
  | undefined => exact ⟨_, rfl⟩

theorem t_normal_of_resolvable (this : I18nManager) (host : Host) (key : String)
    (h : this.resolvable = true) : ∃ v, (this.t host key).1 = .normal v := by
  obtain ⟨a, ha⟩ := resolvable_read this host key h
  obtain ⟨b, hb⟩ := fallback_getOpt_normal this.translations host key
  rw [t_of_reads this host key a b ha hb]
  split
  · exact ⟨_, rfl⟩
  · split
    · exact ⟨_, rfl⟩
    · exact ⟨_, rfl⟩

theorem translateElements_cons_none (this : I18nManager) (host : Host)
    (attr : Element → Option String) (assign : Element → JSValue → Element)
    (e : Element) (rest : List Element) (ha : attr e = none) :
    this.translateElements host attr assign (e :: rest) =
      (e :: (this.translateElements host attr assign rest).1,
        (this.translateElements host attr assign rest).2.1,
        (this.translateElements host attr assign rest).2.2) := by
  simp [I18nManager.translateElements, ha]

theorem translateElements_cons_throw (this : I18nManager) (host : Host)
    (attr : Element → Option String) (assign : Element → JSValue → Element)
    (e : Element) (rest : List Element) (key : String) (err : JSError)
    (lines : List ConsoleEntry) (ha : attr e = some key)
    (ht : this.t host key = (.throw err, lines)) :
    this.translateElements host attr assign (e :: rest) = (e :: rest, lines, .throw err) := by
  simp [I18nManager.translateElements, ha, ht]

theorem translateElements_cons_normal (this : I18nManager) (host : Host)
    (attr : Element → Option String) (assign : Element → JSValue → Element)
    (e : Element) (rest : List Element) (key : String) (v : JSValue)
    (lines : List ConsoleEntry) (ha : attr e = some key)
    (ht : this.t host key = (.normal v, lines)) :
    this.translateElements host attr assign (e :: rest) =
      (assign e v :: (this.translateElements host attr assign rest).1,
        lines ++ (this.translateElements host attr assign rest).2.1,
        (this.translateElements host attr assign rest).2.2) := by
  simp [I18nManager.translateElements, ha, ht]

theorem translateElements_of_normal (this : I18nManager) (host : Host)
    (attr : Element → Option String) (assign : Element → JSValue → Element)
    (h : ∀ key, ∃ v, (this.t host key).1 = .normal v) (es : List Element) :
    (this.translateElements host attr assign es).1 =
        es.map (Element.translated attr assign (this.tValue host)) ∧
      (this.translateElements host attr assign es).2.2 = .normal () := by
  induction es with
  | nil => exact ⟨rfl, rfl⟩
  | cons e rest ih =>
    cases ha : attr e with
    | none =>
      rw [translateElements_cons_none this host attr assign e rest ha]
      simp only [List.map_cons, Element.translated, ha]
      exact ⟨by rw [ih.1], ih.2⟩
    | some key =>
      obtain ⟨v, hv⟩ := h key
      have hval : this.tValue host key = v := by simp [I18nManager.tValue, hv]
      have ht : this.t host key = (.normal v, (this.t host key).2) := by
        rw [← hv]
      rw [translateElements_cons_normal this host attr assign e rest key v _ ha ht]
      simp only [List.map_cons, Element.translated, ha, hval]
      exact ⟨by rw [ih.1], ih.2⟩

theorem translatePass_i18n (w : World) (host : Host)
    (attr : Element → Option String) (assign : Element → JSValue → Element) :
    (I18nManager.translatePass w host attr assign).1.i18n = w.i18n := rfl

theorem translatePass_localStorage (w : World) (host : Host)
    (attr : Element → Option String) (assign : Element → JSValue → Element) :
    (I18nManager.translatePass w host attr assign).1.localStorage = w.localStorage := rfl

/-- Method `updatePage` when a pass throws or all three complete, by cases on
the completions of the passes. -/
theorem updatePage_cases (w : World) (host : Host) :
    let p1 := I18nManager.translatePass w host Element.dataI18n Element.setTextContent
    let p2 := I18nManager.translatePass p1.1 host Element.dataI18nPlaceholder
      Element.setPlaceholder
    let p3 := I18nManager.translatePass p2.1 host Element.dataI18nTitle Element.setTitle
    (∃ e, p1.2 = .throw e ∧ I18nManager.updatePage w host = (p1.1, .throw e)) ∨
    (p1.2 = .normal () ∧ ∃ e, p2.2 = .throw e ∧
      I18nManager.updatePage w host = (p2.1, .throw e)) ∨
    (p1.2 = .normal () ∧ p2.2 = .normal () ∧ ∃ e, p3.2 = .throw e ∧
      I18nManager.updatePage w host = (p3.1, .throw e)) ∨
    (p1.2 = .normal () ∧ p2.2 = .normal () ∧ p3.2 = .normal () ∧
      I18nManager.updatePage w host =
        ({ p3.1 with
            documentLang := w.i18n.currentLang,
            events := p3.1.events ++
              [{ type := "languageChanged", language := w.i18n.currentLang }] },
          .normal ())) := by
  intro p1 p2 p3
  unfold I18nManager.updatePage
  rcases h1 : I18nManager.translatePass w host Element.dataI18n Element.setTextContent
    with ⟨w1, c1⟩
  have e1 : p1 = (w1, c1) := h1
  cases c1 with
  | throw e => left; exact ⟨e, by rw [e1], by simp [e1]⟩
  | normal u1 =>
    right
    rcases h2 : I18nManager.translatePass w1 host Element.dataI18nPlaceholder
      Element.setPlaceholder with ⟨w2, c2⟩
    have e2 : p2 = (w2, c2) := by simp only [p2, e1]; exact h2
    cases c2 with
    | throw e => left; exact ⟨by rw [e1], e, by rw [e2], by simp [e2, h2]⟩
    | normal u2 =>
      right
      rcases h3 : I18nManager.translatePass w2 host Element.dataI18nTitle Element.setTitle
        with ⟨w3, c3⟩
      have e3 : p3 = (w3, c3) := by simp only [p3, e2]; exact h3
      have hi : w3.i18n = w.i18n := by
        have a := translatePass_i18n w2 host Element.dataI18nTitle Element.setTitle
        have b := translatePass_i18n w1 host Element.dataI18nPlaceholder Element.setPlaceholder
        have c := translatePass_i18n w host Element.dataI18n Element.setTextContent
        rw [h3] at a; rw [h2] at b; rw [h1] at c
        exact a.trans (b.trans c)
      cases c3 with
      | throw e => left; exact ⟨by rw [e1], by rw [e2], e, by rw [e3], by simp [e3, h2, h3]⟩
      | normal u3 =>
        right
        exact ⟨by rw [e1], by rw [e2], by rw [e3], by simp [e3, h2, h3, hi]⟩

theorem updatePage_i18n (w : World) (host : Host) :
    (I18nManager.updatePage w host).1.i18n = w.i18n := by
  rcases updatePage_cases w host with ⟨e, -, hu⟩ | ⟨-, e, -, hu⟩ | ⟨-, -, e, -, hu⟩ |
    ⟨-, -, -, hu⟩ <;> rw [hu] <;> rfl

theorem updatePage_localStorage (w : World) (host : Host) :
    (I18nManager.updatePage w host).1.localStorage = w.localStorage := by
  rcases updatePage_cases w host with ⟨e, -, hu⟩ | ⟨-, e, -, hu⟩ | ⟨-, -, e, -, hu⟩ |
    ⟨-, -, -, hu⟩ <;> rw [hu] <;> rfl

theorem translatePass_of_normal (w : World) (host : Host)
    (attr : Element → Option String) (assign : Element → JSValue → Element)
    (h : w.i18n.resolvable = true) :
    I18nManager.translatePass w host attr assign =
      ({ w with
          elements := w.elements.map (Element.translated attr assign (w.i18n.tValue host)),
          console := w.console ++ (w.i18n.translateElements host attr assign w.elements).2.1 },
        .normal ()) := by
  have key := translateElements_of_normal w.i18n host attr assign
    (fun k => t_normal_of_resolvable w.i18n host k h) w.elements
  unfold I18nManager.translatePass
  simp only [key.1, key.2]

/-- Method `updatePage` on a manager whose active language does not resolve to a
built-in object: it returns, every pass has run over the whole page, the
document language is set and one event is dispatched. -/
theorem updatePage_of_resolvable (w : World) (host : Host) (h : w.i18n.resolvable = true) :
    (I18nManager.updatePage w host).2 = .normal () ∧
    (I18nManager.updatePage w host).1.elements =
      ((w.elements.map
          (Element.translated Element.dataI18n Element.setTextContent (w.i18n.tValue host))).map
          (Element.translated Element.dataI18nPlaceholder Element.setPlaceholder
            (w.i18n.tValue host))).map
          (Element.translated Element.dataI18nTitle Element.setTitle (w.i18n.tValue host)) ∧
    (I18nManager.updatePage w host).1.documentLang = w.i18n.currentLang ∧
    (I18nManager.updatePage w host).1.events =
      w.events ++ [{ type := "languageChanged", language := w.i18n.currentLang }] := by
  have h1 := translatePass_of_normal w host Element.dataI18n Element.setTextContent h
  have h2 := translatePass_of_normal
    (I18nManager.translatePass w host Element.dataI18n Element.setTextContent).1 host
    Element.dataI18nPlaceholder Element.setPlaceholder (by rw [translatePass_i18n]; exact h)
  have h3 := translatePass_of_normal
    (I18nManager.translatePass
      (I18nManager.translatePass w host Element.dataI18n Element.setTextContent).1 host
      Element.dataI18nPlaceholder Element.setPlaceholder).1 host
    Element.dataI18nTitle Element.setTitle
    (by rw [translatePass_i18n, translatePass_i18n]; exact h)
  rcases updatePage_cases w host with ⟨e, he, -⟩ | ⟨-, e, he, -⟩ | ⟨-, -, e, he, -⟩ |
    ⟨-, -, -, hu⟩
  · rw [h1] at he; cases he
  · rw [h2] at he; cases he
  · rw [h3] at he; cases he
  · rw [hu, h3, h2, h1]
    exact ⟨rfl, rfl, rfl, rfl⟩

theorem get_of_lookup (tr : Translations) (lang : String) (tbl : Table)
    (h : tr.lookup lang = some tbl) : tr.get lang = .table tbl := by
  simp [Translations.get, h]

/-- Method `setLanguage` on a code that names a locale table of the store. -/
theorem setLanguage_of_locale (w : World) (host : Host) (lang : String) (tbl : Table)
    (h : w.i18n.translations.lookup lang = some tbl) :
    (I18nManager.setLanguage w host lang).2 = .normal true ∧
    (I18nManager.setLanguage w host lang).1.i18n =
      { w.i18n with currentLang := lang } ∧
    (I18nManager.setLanguage w host lang).1.localStorage =
      w.localStorage.setItem storageKey lang := by
  have hg := get_of_lookup _ _ _ h
  have hres : ({ w.i18n with currentLang := lang } : I18nManager).resolvable = true := by
    simp [I18nManager.resolvable, hg, LocaleRef.isBuiltin]
  unfold I18nManager.setLanguage
  simp only [hg, LocaleRef.truthy, Bool.not_true, Bool.false_eq_true, if_false]
  have hu := updatePage_of_resolvable
    (I18nManager.saveToLocalStorage { w with i18n := { w.i18n with currentLang := lang } })
    host hres
  have hi := updatePage_i18n
    (I18nManager.saveToLocalStorage { w with i18n := { w.i18n with currentLang := lang } }) host
  have hl := updatePage_localStorage
    (I18nManager.saveToLocalStorage { w with i18n := { w.i18n with currentLang := lang } }) host
  rcases hr : I18nManager.updatePage
    (I18nManager.saveToLocalStorage { w with i18n := { w.i18n with currentLang := lang } })
    host with ⟨w', c⟩
  rw [hr] at hu hi hl
  cases c with
  | throw e => exact absurd hu.1 (by simp)
  | normal u => exact ⟨rfl, hi, hl⟩

theorem translations_lookup_supported (c : String)
    (hc : c = "ht" ∨ c = "en" ∨ c = "fr") : ∃ tbl, translations.lookup c = some tbl := by
  rcases hc with rfl | rfl | rfl
  · exact ⟨translations_ht, rfl⟩
  · exact ⟨translations_en, rfl⟩
  · exact ⟨translations_fr, rfl⟩

/-- C1: for every manager state over the static `translations` and every
supported locale code `c` (`"ht"`, `"en"` or `"fr"`), `setLanguage(c)` returns
`true` and `getLanguage()` returns `c` afterwards. -/
theorem setLanguage_supported_succeeds (w : World) (host : Host) (c : String)
    (htr : w.i18n.translations = translations) (hc : c = "ht" ∨ c = "en" ∨ c = "fr") :
    (I18nManager.setLanguage w host c).2 = .normal true ∧
      (I18nManager.setLanguage w host c).1.i18n.getLanguage = c := by
  obtain ⟨tbl, htbl⟩ := translations_lookup_supported c hc
  have h := setLanguage_of_locale w host c tbl (by rw [htr]; exact htbl)
  exact ⟨h.1, by rw [h.2.1]; rfl⟩

theorem setLanguage_supported_succeeds_witness :
    sampleWorld.i18n.translations = translations ∧
    (("fr" : String) = "ht" ∨ ("fr" : String) = "en" ∨ ("fr" : String) = "fr") ∧
    (I18nManager.setLanguage sampleWorld quietHost "fr").2 = .normal true ∧
      (I18nManager.setLanguage sampleWorld quietHost "fr").1.i18n.getLanguage = "fr" :=
  ⟨rfl, by decide,
    setLanguage_supported_succeeds sampleWorld quietHost "fr" rfl (by decide)⟩

/-- Method `setLanguage` on a code for which `translations[lang]` is truthy: the
active language and the stored preference are overwritten before the page is
updated, and the call does not return `false`. -/
theorem setLanguage_of_truthy (w : World) (host : Host) (lang : String)
    (h : (w.i18n.translations.get lang).truthy = true) :
    (I18nManager.setLanguage w host lang).2 ≠ .normal false ∧
    (I18nManager.setLanguage w host lang).1.i18n = { w.i18n with currentLang := lang } ∧
    (I18nManager.setLanguage w host lang).1.localStorage =
      w.localStorage.setItem storageKey lang := by
  unfold I18nManager.setLanguage
  simp only [h, Bool.not_true, Bool.false_eq_true, if_false]
  have hi := updatePage_i18n
    (I18nManager.saveToLocalStorage { w with i18n := { w.i18n with currentLang := lang } }) host
  have hl := updatePage_localStorage
    (I18nManager.saveToLocalStorage { w with i18n := { w.i18n with currentLang := lang } }) host
  rcases hr : I18nManager.updatePage
    (I18nManager.saveToLocalStorage { w with i18n := { w.i18n with currentLang := lang } })
    host with ⟨w', c⟩
  rw [hr] at hi hl
  cases c with
  | throw e => exact ⟨by simp, hi, hl⟩
  | normal u => exact ⟨by simp, hi, hl⟩

/-- Method `setLanguage` on a code for which `translations[lang]` is
`undefined`: it returns `false` and only writes a console line. -/
theorem setLanguage_of_falsy (w : World) (host : Host) (lang : String)
    (h : (w.i18n.translations.get lang).truthy = false) :
    I18nManager.setLanguage w host lang =
      ({ w with console := w.console ++ [.error ("Language not supported: " ++ lang)] },
        .normal false) := by
  unfold I18nManager.setLanguage
  simp [h]

/-- C2 (the code departs from it): `"constructor"` is not a supported locale,
yet for every manager state over the static `translations` the call
`setLanguage("constructor")` does not return `false`; it makes `"constructor"`
the active language and writes it to the storage slot `"kreyol_ia_lang"`. -/
theorem setLanguage_constructor_accepted (w : World) (host : Host)
    (htr : w.i18n.translations = translations) :
    (I18nManager.setLanguage w host "constructor").2 ≠ .normal false ∧
    (I18nManager.setLanguage w host "constructor").1.i18n.getLanguage = "constructor" ∧
    (I18nManager.setLanguage w host "constructor").1.localStorage.getItem storageKey =
      some "constructor" := by
  have h := setLanguage_of_truthy w host "constructor" (by rw [htr]; rfl)
  refine ⟨h.1, by rw [h.2.1]; rfl, ?_⟩
  rw [h.2.2]
  exact Storage.getItem_setItem _ _ _

theorem setLanguage_constructor_accepted_witness :
    sampleWorld.i18n.translations = translations ∧
    (I18nManager.setLanguage sampleWorld quietHost "constructor").2 ≠ .normal false ∧
    (I18nManager.setLanguage sampleWorld quietHost "constructor").1.i18n.getLanguage =
      "constructor" ∧
    (I18nManager.setLanguage sampleWorld quietHost "constructor").1.localStorage.getItem
      storageKey = some "constructor" :=
  ⟨rfl, setLanguage_constructor_accepted sampleWorld quietHost rfl⟩

/-- C3: for every manager state over the static `translations` and every
supported locale code `c`, after `setLanguage(c)` the storage slot
`"kreyol_ia_lang"` holds exactly `c`; in particular after `setLanguage("fr")`
the slot holds `"fr"` and `t("btn.save")` returns `"Sauvegarder"`. -/
theorem setLanguage_persists_choice (w : World) (host : Host) (c : String)
    (htr : w.i18n.translations = translations) (hc : c = "ht" ∨ c = "en" ∨ c = "fr") :
    (I18nManager.setLanguage w host c).2 = .normal true ∧
    (I18nManager.setLanguage w host c).1.localStorage.getItem storageKey = some c ∧
    (c = "fr" →
      ((I18nManager.setLanguage w host c).1.i18n.t host "btn.save").1 =
        .normal (.string "Sauvegarder")) := by
  obtain ⟨tbl, htbl⟩ := translations_lookup_supported c hc
  have h := setLanguage_of_locale w host c tbl (by rw [htr]; exact htbl)
  refine ⟨h.1, ?_, ?_⟩
  · rw [h.2.2]
    exact Storage.getItem_setItem _ _ _
  · intro hfr
    subst hfr
    rw [h.2.1]
    show (I18nManager.t { currentLang := "fr", translations := w.i18n.translations } host
      "btn.save").1 = _
    rw [htr]
    rfl

theorem setLanguage_persists_choice_witness :
    sampleWorld.i18n.translations = translations ∧
    (("fr" : String) = "ht" ∨ ("fr" : String) = "en" ∨ ("fr" : String) = "fr") ∧
    (I18nManager.setLanguage sampleWorld quietHost "fr").2 = .normal true ∧
    (I18nManager.setLanguage sampleWorld quietHost "fr").1.localStorage.getItem storageKey =
      some "fr" ∧
    (("fr" : String) = "fr" →
      ((I18nManager.setLanguage sampleWorld quietHost "fr").1.i18n.t quietHost "btn.save").1 =
        .normal (.string "Sauvegarder")) :=
  ⟨rfl, by decide, setLanguage_persists_choice sampleWorld quietHost "fr" rfl (by decide)⟩

theorem mem_of_lookup {β : Type} (l : List (String × β)) (k : String) (v : β)
    (h : l.lookup k = some v) : (k, v) ∈ l := by
  induction l with
  | nil => simp [List.lookup] at h
  | cons p rest ih =>
    obtain ⟨k', v'⟩ := p
    by_cases hk : k = k'
    · subst hk
      simp [List.lookup] at h
      simp [h]
    · have hne : (k == k') = false := by simpa using hk
      simp only [List.lookup, hne] at h
      exact List.mem_cons_of_mem _ (ih h)

theorem translations_values_nonempty :
    ∀ entry ∈ translations, ∀ kv ∈ entry.2, kv.2 ≠ "" := by
  decide

/-- Method `t` on a key whose own entry in the active table is a non-empty
string. -/
theorem t_of_own_entry (this : I18nManager) (host : Host) (key s : String) (tbl : Table)
    (hl : this.translations.lookup this.currentLang = some tbl)
    (hk : tbl.lookup key = some s) (hs : s ≠ "") :
    this.t host key = (.normal (.string s), []) := by
  unfold I18nManager.t
  rw [get_of_lookup _ _ _ hl, LocaleRef.getOpt_table]
  simp [Table.get, hk, JSValue.truthy, hs]

/-- C4: for every active language and every key present in the table of the
active locale in the static `translations`, `t(key)` returns exactly the string
that table holds for the key (and writes nothing to the console). -/
theorem t_returns_active_entry (host : Host) (cur key s : String) (tbl : Table)
    (hl : translations.lookup cur = some tbl) (hk : tbl.lookup key = some s) :
    I18nManager.t { currentLang := cur, translations := translations } host key =
      (.normal (.string s), []) := by
  have hs : s ≠ "" :=
    translations_values_nonempty (cur, tbl) (mem_of_lookup _ _ _ hl) (key, s)
      (mem_of_lookup _ _ _ hk)
  exact t_of_own_entry _ host key s tbl hl hk hs

theorem t_returns_active_entry_witness :
    translations.lookup "ht" = some translations_ht ∧
    translations_ht.lookup "nav.home" = some "Akèy" ∧
    I18nManager.t { currentLang := "ht", translations := translations } quietHost "nav.home" =
      (.normal (.string "Akèy"), []) :=
  ⟨rfl, rfl, t_returns_active_entry quietHost "ht" "nav.home" "Akèy" translations_ht rfl rfl⟩

/-- C5 fails as stated: in `emptyFallbackStore` with active language `ht`, the
key `"subtitle"` is absent from the active table and present in the `en` table
(with the empty string), yet `t("subtitle")` returns the key itself, not the
string of the fallback locale. -/
theorem t_fallback_empty_string_counterexample :
    (∀ tbl, emptyFallbackStore.lookup "ht" = some tbl → tbl.lookup "subtitle" = none) ∧
    (∃ en, emptyFallbackStore.lookup "en" = some en ∧ en.lookup "subtitle" = some "") ∧
    (I18nManager.t { currentLang := "ht", translations := emptyFallbackStore } quietHost
      "subtitle").1 = .normal (.string "subtitle") ∧
    (I18nManager.t { currentLang := "ht", translations := emptyFallbackStore } quietHost
      "subtitle").1 ≠ .normal (.string "") := by
  refine ⟨?_, ⟨_, rfl, rfl⟩, rfl, by decide⟩
  intro tbl h
  have : tbl = [("title", "Tit")] := by
    have h2 : emptyFallbackStore.lookup "ht" = some [("title", "Tit")] := rfl
    rw [h2] at h
    exact (Option.some.inj h).symm
  subst this
  rfl

/-- C5 as amended: for every translation store, active language and key such
that the table of the active language (if it has one) lacks the key, the `en`
table maps the key to a non-empty string, and neither the key nor an active
language without a table is the name of a property inherited from
`Object.prototype`, `t(key)` returns the string of the `en` table. -/
theorem t_falls_back_to_en (tr : Translations) (host : Host) (cur key s : String)
    (en : Table)
    (habsent : ∀ tbl, tr.lookup cur = some tbl → tbl.lookup key = none)
    (hcur : tr.lookup cur = none → cur ∉ objectPrototypeKeys)
    (hkey : key ∉ objectPrototypeKeys)
    (hen : tr.lookup "en" = some en) (hs : en.lookup key = some s) (hne : s ≠ "") :
    I18nManager.t { currentLang := cur, translations := tr } host key =
      (.normal (.string s), []) := by
  have hb : (tr.get "en").getOpt host key = .normal (.string s) := by
    rw [get_of_lookup _ _ _ hen, LocaleRef.getOpt_table]
    simp [Table.get, hs]
  have ha : (tr.get cur).getOpt host key = .normal .undefined := by
    cases hl : tr.lookup cur with
    | none => simp [Translations.get, hl, hcur hl, LocaleRef.getOpt]
    | some tbl =>
      rw [get_of_lookup _ _ _ hl, LocaleRef.getOpt_table]
      simp [Table.get, habsent tbl hl, hkey]
  rw [t_of_reads _ host key _ _ ha hb]
  simp [JSValue.truthy, hne]

theorem t_falls_back_to_en_witness :
    (∀ tbl, partialStore.lookup "ht" = some tbl → tbl.lookup "subtitle" = none) ∧
    (partialStore.lookup "ht" = none → "ht" ∉ objectPrototypeKeys) ∧
    "subtitle" ∉ objectPrototypeKeys ∧
    partialStore.lookup "en" = some [("title", "Title"), ("subtitle", "Subtitle")] ∧
    List.lookup "subtitle" [("title", "Title"), ("subtitle", "Subtitle")] = some "Subtitle" ∧
    "Subtitle" ≠ "" ∧
    I18nManager.t { currentLang := "ht", translations := partialStore } quietHost "subtitle" =
      (.normal (.string "Subtitle"), []) :=
  have h1 : ∀ tbl, partialStore.lookup "ht" = some tbl → tbl.lookup "subtitle" = none :=
    fun tbl h => by
      have h2 : partialStore.lookup "ht" = some [("title", "Tit")] := rfl
      rw [h2] at h
      rw [← Option.some.inj h]
      rfl
  ⟨h1, fun _ => by decide, by decide, rfl, rfl, by decide,
    t_falls_back_to_en partialStore quietHost "ht" "subtitle" "Subtitle" _ h1
      (fun _ => by decide) (by decide) rfl rfl (by decide)⟩

/-- Method `t` on a key that neither the active table nor the `en` table holds
and that is not inherited from `Object.prototype`: the key itself is returned
and a warning is written. -/
theorem t_of_missing_key (tr : Translations) (host : Host) (cur key : String)
    (habsent : ∀ tbl, tr.lookup cur = some tbl → tbl.lookup key = none)
    (hcur : tr.lookup cur = none → cur ∉ objectPrototypeKeys)
    (hen : ∀ tbl, tr.lookup "en" = some tbl → tbl.lookup key = none)
    (hkey : key ∉ objectPrototypeKeys) :
    I18nManager.t { currentLang := cur, translations := tr } host key =
      (.normal (.string key), [.warn ("Translation missing for key: " ++ key)]) := by
  have read : ∀ lang, (∀ tbl, tr.lookup lang = some tbl → tbl.lookup key = none) →
      (tr.lookup lang = none → lang ∉ objectPrototypeKeys) →
      (tr.get lang).getOpt host key = .normal .undefined := by
    intro lang h1 h2
    cases hl : tr.lookup lang with
    | none => simp [Translations.get, hl, h2 hl, LocaleRef.getOpt]
    | some tbl =>
      rw [get_of_lookup _ _ _ hl, LocaleRef.getOpt_table]
      simp [Table.get, h1 tbl hl, hkey]
  rw [t_of_reads _ host key _ _ (read cur habsent hcur)
    (read "en" hen (fun _ => en_not_inherited))]
  simp [JSValue.truthy]

/-- C6 (the code departs from it): `"toString"` is a key of none of the static
tables, yet with active language `en` (the fallback locale itself) as with
active language `ht` the call `t("toString")` does not return the key: it
returns the function inherited from `Object.prototype`, and writes no warning. -/
theorem t_inherited_key_not_verbatim (host : Host) :
    translations_ht.lookup "toString" = none ∧
    translations_en.lookup "toString" = none ∧
    I18nManager.t { currentLang := "en", translations := translations } host "toString" =
      (.normal (.object "toString"), []) ∧
    I18nManager.t { currentLang := "ht", translations := translations } host "toString" =
      (.normal (.object "toString"), []) ∧
    JSValue.object "toString" ≠ JSValue.string "toString" :=
  ⟨rfl, rfl, rfl, rfl, by decide⟩

/-- C7 (the code departs from it): whatever the storage, the browser language
and the default, `new I18nManager(defaultLang)` throws a `TypeError`: the first
statement of the constructor runs `detectLanguage()` while `this.translations`
is still `undefined`, and every path of `detectLanguage` reads a property of
it or of an `undefined` browser language. -/
theorem constructor_throws (localStorage : Storage) (navigator : Navigator)
    (defaultLang : String) :
    I18nManager.constructor localStorage navigator defaultLang = .throw .typeError := by
  have hd : I18nManager.detectLanguage none localStorage navigator = .throw .typeError := by
    unfold I18nManager.detectLanguage savedIsSupported
    cases hs : localStorage.getItem storageKey with
    | none =>
      simp only
      split <;> rfl
    | some code =>
      by_cases hc : code = ""
      · simp only [hc, if_true]
        split <;> rfl
      · simp only [hc, if_false]
  unfold I18nManager.constructor
  rw [hd]

/-- Method `detectLanguage` once `this.translations` is the static table: a
stored supported preference wins, then the primary subtag of the browser
language, then `"ht"`. -/
theorem detectLanguage_assigned_examples :
    I18nManager.detectLanguage (some translations) [(storageKey, "fr")]
      ⟨some "en-US", none⟩ = .normal "fr" ∧
    I18nManager.detectLanguage (some translations) [] ⟨some "en-US", none⟩ = .normal "en" ∧
    I18nManager.detectLanguage (some translations) [] ⟨some "de-DE", none⟩ = .normal "ht" := by
  decide

/-- C8: whatever the active language, `getAvailableLanguages()` over the static
`translations` returns one record per locale in the insertion order of the
table: `ht`, `en`, `fr`, with names "Kreyòl Ayisyen", "English", "Français" and
flags 🇭🇹, 🇺🇸, 🇫🇷. -/
theorem getAvailableLanguages_static (cur : String) :
    I18nManager.getAvailableLanguages { currentLang := cur, translations := translations } =
      [{ code := "ht", name := .string "Kreyòl Ayisyen", flag := .string "🇭🇹" },
       { code := "en", name := .string "English", flag := .string "🇺🇸" },
       { code := "fr", name := .string "Français", flag := .string "🇫🇷" }] := by
  rfl

/-- A pass stops with an exception as soon as `t` throws on the key of a tagged
element. -/
theorem translateElements_throws (this : I18nManager) (host : Host)
    (attr : Element → Option String) (assign : Element → JSValue → Element)
    (es : List Element)
    (h : ∃ el ∈ es, ∃ key e, attr el = some key ∧ (this.t host key).1 = .throw e) :
    ∃ e, (this.translateElements host attr assign es).2.2 = .throw e := by
  induction es with
  | nil => simp at h
  | cons el rest ih =>
    cases ha : attr el with
    | none =>
      rw [translateElements_cons_none this host attr assign el rest ha]
      apply ih
      obtain ⟨x, hx, key, e, hk, ht⟩ := h
      rcases List.mem_cons.mp hx with rfl | hx
      · rw [ha] at hk; cases hk
      · exact ⟨x, hx, key, e, hk, ht⟩
    | some key =>
      rcases ht : this.t host key with ⟨c, lines⟩
      cases c with
      | throw e =>
        rw [translateElements_cons_throw this host attr assign el rest key e lines ha ht]
        exact ⟨e, rfl⟩
      | normal v =>
        rw [translateElements_cons_normal this host attr assign el rest key v lines ha ht]
        apply ih
        obtain ⟨x, hx, key', e, hk, ht'⟩ := h
        rcases List.mem_cons.mp hx with rfl | hx
        · rw [ha] at hk
          cases hk
          rw [ht] at ht'
          cases ht'
        · exact ⟨x, hx, key', e, hk, ht'⟩

/-- C9 (the code departs from it): when `t` throws on the key of an element
tagged `data-i18n`, `updatePage()` throws as well; no `languageChanged` event
is dispatched and the document language attribute is left as it was. -/
theorem updatePage_throws_without_event (w : World) (host : Host)
    (h : ∃ el ∈ w.elements, ∃ key e,
      el.dataI18n = some key ∧ (w.i18n.t host key).1 = .throw e) :
    (∃ e, (I18nManager.updatePage w host).2 = .throw e) ∧
    (I18nManager.updatePage w host).1.events = w.events ∧
    (I18nManager.updatePage w host).1.documentLang = w.documentLang := by
  obtain ⟨e, he⟩ := translateElements_throws w.i18n host Element.dataI18n
    Element.setTextContent w.elements h
  rcases updatePage_cases w host with ⟨e', -, hu⟩ | ⟨h1, -⟩ | ⟨h1, -⟩ | ⟨h1, -⟩
  · rw [hu]
    exact ⟨⟨e', rfl⟩, rfl, rfl⟩
  · exact absurd (he.symm.trans h1) (by simp)
  · exact absurd (he.symm.trans h1) (by simp)
  · exact absurd (he.symm.trans h1) (by simp)

theorem updatePage_throws_without_event_witness :
    (∃ el ∈ inheritedLangWorld.elements, ∃ key e,
      el.dataI18n = some key ∧ (inheritedLangWorld.i18n.t restrictedHost key).1 = .throw e) ∧
    (∃ e, (I18nManager.updatePage inheritedLangWorld restrictedHost).2 = .throw e) ∧
    (I18nManager.updatePage inheritedLangWorld restrictedHost).1.events = [] ∧
    (I18nManager.updatePage inheritedLangWorld restrictedHost).1.documentLang = "ht" :=
  have h : ∃ el ∈ inheritedLangWorld.elements, ∃ key e,
      el.dataI18n = some key ∧ (inheritedLangWorld.i18n.t restrictedHost key).1 = .throw e :=
    ⟨_, List.mem_cons_of_mem _ (List.mem_cons_self _ _), "caller", .typeError, rfl, rfl⟩
  ⟨h, updatePage_throws_without_event inheritedLangWorld restrictedHost h⟩

theorem triple_eq {α β γ : Type} (p : α × β × γ) (a : α) (b : β) (c : γ)
    (h1 : p.1 = a) (h2 : p.2.1 = b) (h3 : p.2.2 = c) : p = (a, b, c) := by
  subst h1 h2 h3
  rfl

/-- Running a pass on its own output changes nothing: the same elements, the
same console lines and the same completion come out. -/
theorem translateElements_idem (this : I18nManager) (host : Host)
    (attr : Element → Option String) (assign : Element → JSValue → Element)
    (hattr : ∀ e v, attr (assign e v) = attr e)
    (hassign : ∀ e v, assign (assign e v) v = assign e v) (es : List Element) :
    this.translateElements host attr assign (this.translateElements host attr assign es).1 =
      this.translateElements host attr assign es := by
  induction es with
  | nil => rfl
  | cons el rest ih =>
    cases ha : attr el with
    | none =>
      rw [translateElements_cons_none this host attr assign el rest ha,
        translateElements_cons_none this host attr assign el _ ha, ih]
    | some key =>
      rcases ht : this.t host key with ⟨c, lines⟩
      cases c with
      | throw e =>
        rw [translateElements_cons_throw this host attr assign el rest key e lines ha ht]
        exact translateElements_cons_throw this host attr assign el rest key e lines ha ht
      | normal v =>
        rw [translateElements_cons_normal this host attr assign el rest key v lines ha ht,
          translateElements_cons_normal this host attr assign (assign el v) _ key v lines
            ((hattr el v).trans ha) ht, ih, hassign]

/-- One step of `translateElements_stable`: a page left unchanged by pass `P`
stays so when its head is replaced by an element with the same attribute that
`P` also leaves unchanged, and its tail by one that `P` treats like the old. -/
theorem translateElements_stable_cons (this : I18nManager) (host : Host)
    (attr : Element → Option String) (assign : Element → JSValue → Element)
    (el el' : Element) (rest rest' : List Element)
    (lines : List ConsoleEntry) (c : Completion Unit)
    (hfix : this.translateElements host attr assign (el :: rest) = (el :: rest, lines, c))
    (hattr : attr el' = attr el)
    (hassign : ∀ v, assign el v = el → assign el' v = el')
    (htail : ∀ l d, this.translateElements host attr assign rest = (rest, l, d) →
      this.translateElements host attr assign rest' = (rest', l, d)) :
    this.translateElements host attr assign (el' :: rest') = (el' :: rest', lines, c) := by
  cases ha : attr el with
  | none =>
    rw [translateElements_cons_none this host attr assign el rest ha] at hfix
    rw [translateElements_cons_none this host attr assign el' rest' (hattr.trans ha)]
    simp only [Prod.mk.injEq, List.cons.injEq, true_and] at hfix
    obtain ⟨h1, h2, h3⟩ := hfix
    rw [htail lines c (triple_eq _ _ _ _ h1 h2 h3)]
  | some key =>
    rcases ht : this.t host key with ⟨r, ls⟩
    cases r with
    | throw e =>
      rw [translateElements_cons_throw this host attr assign el rest key e ls ha ht] at hfix
      rw [translateElements_cons_throw this host attr assign el' rest' key e ls
        (hattr.trans ha) ht]
      simp only [Prod.mk.injEq, true_and] at hfix
      rw [hfix.1, hfix.2]
    | normal v =>
      rw [translateElements_cons_normal this host attr assign el rest key v ls ha ht] at hfix
      rw [translateElements_cons_normal this host attr assign el' rest' key v ls
        (hattr.trans ha) ht]
      simp only [Prod.mk.injEq, List.cons.injEq] at hfix
      obtain ⟨⟨h0, h1⟩, h2, h3⟩ := hfix
      rw [htail _ c (triple_eq _ _ _ _ h1 rfl h3), hassign v h0, h2]

/-- A page that pass `P` leaves unchanged is still left unchanged by `P` after
another pass `Q` has run over it, provided `Q` keeps the attribute read by `P`
and the two assignments commute. -/
theorem translateElements_stable (this : I18nManager) (host : Host)
    (attrP attrQ : Element → Option String) (assignP assignQ : Element → JSValue → Element)
    (hattr : ∀ e v, attrP (assignQ e v) = attrP e)
    (hcomm : ∀ e v u, assignP (assignQ e u) v = assignQ (assignP e v) u)
    (es : List Element) (lines : List ConsoleEntry) (c : Completion Unit)
    (hfix : this.translateElements host attrP assignP es = (es, lines, c)) :
    this.translateElements host attrP assignP
        (this.translateElements host attrQ assignQ es).1 =
      ((this.translateElements host attrQ assignQ es).1, lines, c) := by
  induction es generalizing lines c with
  | nil => exact hfix
  | cons el rest ih =>
    cases ha : attrQ el with
    | none =>
      rw [translateElements_cons_none this host attrQ assignQ el rest ha]
      exact translateElements_stable_cons this host attrP assignP el el rest _ lines c hfix rfl
        (fun _ h => h) (fun l d h => ih l d h)
    | some key =>
      rcases ht : this.t host key with ⟨r, ls⟩
      cases r with
      | throw e =>
        rw [translateElements_cons_throw this host attrQ assignQ el rest key e ls ha ht]
        exact hfix
      | normal u =>
        rw [translateElements_cons_normal this host attrQ assignQ el rest key u ls ha ht]
        exact translateElements_stable_cons this host attrP assignP el (assignQ el u) rest _
          lines c hfix (hattr el u)
          (fun v h => by rw [hcomm, h]) (fun l d h => ih l d h)

theorem updatePage_eq_syncElements (w : World) (host : Host) :
    (I18nManager.updatePage w host).1.elements = (w.i18n.syncElements host w.elements).1 ∧
    (I18nManager.updatePage w host).2 = (w.i18n.syncElements host w.elements).2 ∧
    (I18nManager.updatePage w host).1.documentLang =
      (match (w.i18n.syncElements host w.elements).2 with
        | .normal _ => w.i18n.currentLang
        | .throw _ => w.documentLang) := by
  unfold I18nManager.syncElements
  rcases updatePage_cases w host with ⟨e, h1, hu⟩ | ⟨h1, e, h2, hu⟩ | ⟨h1, h2, e, h3, hu⟩ |
    ⟨h1, h2, h3, hu⟩
  · have h1' : (w.i18n.translateElements host Element.dataI18n Element.setTextContent
        w.elements).2.2 = .throw e := h1
    rw [hu]
    simp only [h1']
    refine ⟨?_, ?_, ?_⟩ <;> first | rfl | trivial
  · have h1' : (w.i18n.translateElements host Element.dataI18n Element.setTextContent
        w.elements).2.2 = .normal () := h1
    have h2' : (w.i18n.translateElements host Element.dataI18nPlaceholder
        Element.setPlaceholder (w.i18n.translateElements host Element.dataI18n
          Element.setTextContent w.elements).1).2.2 = .throw e := h2
    rw [hu]
    simp only [h1', h2']
    refine ⟨?_, ?_, ?_⟩ <;> first | rfl | trivial
  · have h1' : (w.i18n.translateElements host Element.dataI18n Element.setTextContent
        w.elements).2.2 = .normal () := h1
    have h2' : (w.i18n.translateElements host Element.dataI18nPlaceholder
        Element.setPlaceholder (w.i18n.translateElements host Element.dataI18n
          Element.setTextContent w.elements).1).2.2 = .normal () := h2
    have h3' : (w.i18n.translateElements host Element.dataI18nTitle Element.setTitle
        (w.i18n.translateElements host Element.dataI18nPlaceholder
        Element.setPlaceholder (w.i18n.translateElements host Element.dataI18n
          Element.setTextContent w.elements).1).1).2.2 = .throw e := h3
    rw [hu]
    simp only [h1', h2', h3']
    refine ⟨?_, ?_, ?_⟩ <;> first | rfl | trivial
  · have h1' : (w.i18n.translateElements host Element.dataI18n Element.setTextContent
        w.elements).2.2 = .normal () := h1
    have h2' : (w.i18n.translateElements host Element.dataI18nPlaceholder
        Element.setPlaceholder (w.i18n.translateElements host Element.dataI18n
          Element.setTextContent w.elements).1).2.2 = .normal () := h2
    have h3' : (w.i18n.translateElements host Element.dataI18nTitle Element.setTitle
        (w.i18n.translateElements host Element.dataI18nPlaceholder
        Element.setPlaceholder (w.i18n.translateElements host Element.dataI18n
          Element.setTextContent w.elements).1).1).2.2 = .normal () := h3
    rw [hu]
    simp only [h1', h2', h3']
    refine ⟨?_, ?_, ?_⟩ <;> first | rfl | trivial

theorem syncElements_idem (this : I18nManager) (host : Host) (es : List Element) :
    this.syncElements host (this.syncElements host es).1 = this.syncElements host es := by
  have i1 := translateElements_idem this host Element.dataI18n Element.setTextContent
    (fun _ _ => rfl) (fun _ _ => rfl)
  have i2 := translateElements_idem this host Element.dataI18nPlaceholder
    Element.setPlaceholder (fun _ _ => rfl) (fun _ _ => rfl)
  have i3 := translateElements_idem this host Element.dataI18nTitle Element.setTitle
    (fun _ _ => rfl) (fun _ _ => rfl)
  have s12 := translateElements_stable this host Element.dataI18n Element.dataI18nPlaceholder
    Element.setTextContent Element.setPlaceholder (fun _ _ => rfl) (fun _ _ _ => rfl)
  have s13 := translateElements_stable this host Element.dataI18n Element.dataI18nTitle
    Element.setTextContent Element.setTitle (fun _ _ => rfl) (fun _ _ _ => rfl)
  have s23 := translateElements_stable this host Element.dataI18nPlaceholder
    Element.dataI18nTitle Element.setPlaceholder Element.setTitle (fun _ _ => rfl)
    (fun _ _ _ => rfl)
  -- the page after each pass, and the fact that earlier passes leave it unchanged
  rcases h1 : this.translateElements host Element.dataI18n Element.setTextContent es
    with ⟨e1, l1, c1⟩
  have f1 : this.translateElements host Element.dataI18n Element.setTextContent e1 =
      (e1, l1, c1) := by
    have := i1 es
    rw [h1] at this
    exact this
  cases c1 with
  | throw e =>
    simp only [I18nManager.syncElements, h1, f1]
  | normal u1 =>
    rcases h2 : this.translateElements host Element.dataI18nPlaceholder
      Element.setPlaceholder e1 with ⟨e2, l2, c2⟩
    have f2 : this.translateElements host Element.dataI18nPlaceholder
        Element.setPlaceholder e2 = (e2, l2, c2) := by
      have := i2 e1
      rw [h2] at this
      exact this
    have f12 : this.translateElements host Element.dataI18n Element.setTextContent e2 =
        (e2, l1, .normal u1) := by
      have := s12 e1 l1 (.normal u1) f1
      rw [h2] at this
      exact this
    cases c2 with
    | throw e =>
      simp only [I18nManager.syncElements, h1, h2, f12, f2]
    | normal u2 =>
      rcases h3 : this.translateElements host Element.dataI18nTitle Element.setTitle e2
        with ⟨e3, l3, c3⟩
      have f3 : this.translateElements host Element.dataI18nTitle Element.setTitle e3 =
          (e3, l3, c3) := by
        have := i3 e2
        rw [h3] at this
        exact this
      have f13 : this.translateElements host Element.dataI18n Element.setTextContent e3 =
          (e3, l1, .normal u1) := by
        have := s13 e2 l1 (.normal u1) f12
        rw [h3] at this
        exact this
      have f23 : this.translateElements host Element.dataI18nPlaceholder
          Element.setPlaceholder e3 = (e3, l2, .normal u2) := by
        have := s23 e2 l2 (.normal u2) f2
        rw [h3] at this
        exact this
      simp only [I18nManager.syncElements, h1, h2, h3, f13, f23, f3]

/-- C10: `updatePage()` is idempotent on page content. For every page, manager
state and host, a second call right after the first leaves every element (text
content, placeholder and title) and the document language attribute exactly as
the first call left them, and completes the same way. -/
theorem updatePage_idempotent (w : World) (host : Host) :
    (I18nManager.updatePage (I18nManager.updatePage w host).1 host).1.elements =
      (I18nManager.updatePage w host).1.elements ∧
    (I18nManager.updatePage (I18nManager.updatePage w host).1 host).1.documentLang =
      (I18nManager.updatePage w host).1.documentLang ∧
    (I18nManager.updatePage (I18nManager.updatePage w host).1 host).2 =
      (I18nManager.updatePage w host).2 := by
  obtain ⟨a1, a2, a3⟩ := updatePage_eq_syncElements w host
  obtain ⟨b1, b2, b3⟩ := updatePage_eq_syncElements (I18nManager.updatePage w host).1 host
  rw [updatePage_i18n, a1, syncElements_idem] at b1 b2 b3
  refine ⟨b1.trans a1.symm, ?_, b2.trans a2.symm⟩
  rw [b3, a3]
  cases (w.i18n.syncElements host w.elements).2 <;> rfl

/-- Method `updatePage` on a manager whose active language does not resolve to a
built-in object: it returns; every tagged element has text content, placeholder
and title `t(key)`; untagged properties and elements are untouched; the
document language is the active language; one `languageChanged` event carrying
it is dispatched. -/
theorem updatePage_synchronizes (w : World) (host : Host) (h : w.i18n.resolvable = true) :
    (I18nManager.updatePage w host).2 = .normal () ∧
    (I18nManager.updatePage w host).1.elements =
      w.elements.map (Element.synchronized (w.i18n.tValue host)) ∧
    (I18nManager.updatePage w host).1.documentLang = w.i18n.currentLang ∧
    (I18nManager.updatePage w host).1.events =
      w.events ++ [{ type := "languageChanged", language := w.i18n.currentLang }] := by
  obtain ⟨h1, h2, h3, h4⟩ := updatePage_of_resolvable w host h
  refine ⟨h1, ?_, h3, h4⟩
  rw [h2, List.map_map, List.map_map]
  apply List.map_congr_left
  intro e _
  rcases e with ⟨a, b, c, x, y, z⟩
  cases a <;> cases b <;> cases c <;> rfl


theorem translations_lookup_unsupported (lang : String)
    (h : lang ≠ "ht" ∧ lang ≠ "en" ∧ lang ≠ "fr") : translations.lookup lang = none := by
  obtain ⟨h1, h2, h3⟩ := h
  have e1 : (lang == "ht") = false := by simpa using h1
  have e2 : (lang == "en") = false := by simpa using h2
  have e3 : (lang == "fr") = false := by simpa using h3
  simp only [translations, List.lookup, e1, e2, e3]

/-- Method `setLanguage` on a code that is neither a supported locale nor the
name of a property inherited from `Object.prototype`: it returns `false`, and
neither the active language nor the storage nor the page changes. -/
theorem setLanguage_rejects_unknown (w : World) (host : Host) (lang : String)
    (htr : w.i18n.translations = translations)
    (h : lang ≠ "ht" ∧ lang ≠ "en" ∧ lang ≠ "fr") (hp : lang ∉ objectPrototypeKeys) :
    (I18nManager.setLanguage w host lang).2 = .normal false ∧
    (I18nManager.setLanguage w host lang).1.i18n = w.i18n ∧
    (I18nManager.setLanguage w host lang).1.localStorage = w.localStorage ∧
    (I18nManager.setLanguage w host lang).1.elements = w.elements ∧
    (I18nManager.setLanguage w host lang).1.documentLang = w.documentLang ∧
    (I18nManager.setLanguage w host lang).1.events = w.events := by
  have hg : (w.i18n.translations.get lang).truthy = false := by
    rw [htr]
    simp [Translations.get, translations_lookup_unsupported lang h, hp, LocaleRef.truthy]
  rw [setLanguage_of_falsy w host lang hg]
  exact ⟨rfl, rfl, rfl, rfl, rfl, rfl⟩

/-- C11 (the code departs from it): when `getElementById(containerId)` finds no
element, `new LanguageSelector(containerId, options)` logs the diagnostic in
`render()`, renders nothing and attaches no listener, but then throws a
`TypeError`: `attachEventListeners()` calls `this.container.addEventListener`
on `null`. -/
theorem selector_without_mount_throws (page : Page) (containerId : String)
    (options : SelectorOptions) (h : page.mounts.lookup containerId = none) :
    LanguageSelector.constructor page containerId options =
      ({ page with
          world := { page.world with
            console := page.world.console ++
              [.error "Language selector container not found"] } },
        .throw .typeError) := by
  simp [LanguageSelector.constructor, h, LanguageSelector.render,
    LanguageSelector.attachEventListeners]

theorem selector_without_mount_throws_witness :
    samplePage.mounts.lookup "sidebar" = none ∧
    LanguageSelector.constructor samplePage "sidebar" ⟨none, none⟩ =
      ({ samplePage with
          world := { samplePage.world with
            console := samplePage.world.console ++
              [.error "Language selector container not found"] } },
        .throw .typeError) :=
  ⟨rfl, selector_without_mount_throws samplePage "sidebar" ⟨none, none⟩ rfl⟩

/-- Method `renderDropdown` when the active language is not among the listed
languages: `find` returns `undefined` and reading `current.flag` throws. -/
theorem renderDropdown_throws_of_not_listed (this : LanguageSelector) (page : Page)
    (languages : List LanguageInfo) (currentLang : String)
    (h : currentLang ∉ languages.map LanguageInfo.code) :
    this.renderDropdown page languages currentLang = (page, .throw .typeError) := by
  have hf : languages.find? (fun l => decide (l.code = currentLang)) = none := by
    rw [List.find?_eq_none]
    intro l hl hc
    exact h (List.mem_map.mpr ⟨l, hl, by simpa using hc⟩)
  simp [LanguageSelector.renderDropdown, hf]

/-- C12 (the code departs from it): after `setLanguage("constructor")` on a
manager over the static `translations`, the active language returned by
`getLanguage()` is not one of the codes listed by `getAvailableLanguages()`,
and constructing a dropdown selector on an existing mount point then throws a
`TypeError`, because `languages.find(...)` in `renderDropdown` returns
`undefined`. -/
theorem active_language_not_listed (page : Page) (host : Host) (containerId : String)
    (options : SelectorOptions)
    (htr : page.world.i18n.translations = translations)
    (hmount : (page.mounts.lookup containerId).isSome = true)
    (hstyle : options.style.getD "dropdown" ≠ "flags") :
    (I18nManager.setLanguage page.world host "constructor").1.i18n.getLanguage ∉
      (I18nManager.setLanguage page.world host "constructor").1.i18n.getAvailableLanguages.map
        LanguageInfo.code ∧
    (LanguageSelector.constructor
      { page with world := (I18nManager.setLanguage page.world host "constructor").1 }
      containerId options).2 = .throw .typeError := by
  have h := setLanguage_of_truthy page.world host "constructor" (by rw [htr]; rfl)
  have hi : (I18nManager.setLanguage page.world host "constructor").1.i18n =
      { currentLang := "constructor", translations := translations } := by
    rw [h.2.1, ← htr]
  have hnot : (I18nManager.setLanguage page.world host "constructor").1.i18n.getLanguage ∉
      (I18nManager.setLanguage page.world host "constructor").1.i18n.getAvailableLanguages.map
        LanguageInfo.code := by
    rw [hi]
    decide
  refine ⟨hnot, ?_⟩
  simp only [LanguageSelector.constructor, hmount, if_true, LanguageSelector.render, hstyle,
    if_false]
  rw [renderDropdown_throws_of_not_listed _ _ _ _ hnot]

theorem active_language_not_listed_witness :
    samplePage.world.i18n.translations = translations ∧
    (samplePage.mounts.lookup "language-selector").isSome = true ∧
    (none : Option String).getD "dropdown" ≠ "flags" ∧
    (I18nManager.setLanguage samplePage.world quietHost "constructor").1.i18n.getLanguage ∉
      (I18nManager.setLanguage samplePage.world quietHost
        "constructor").1.i18n.getAvailableLanguages.map LanguageInfo.code ∧
    (LanguageSelector.constructor
      { samplePage with
        world := (I18nManager.setLanguage samplePage.world quietHost "constructor").1 }
      "language-selector" ⟨none, none⟩).2 = .throw .typeError :=
  ⟨rfl, rfl, by decide,
    active_language_not_listed samplePage quietHost "language-selector" ⟨none, none⟩ rfl rfl
      (by decide)⟩

/-- One `setLanguage` call with an argument that is not the name of a property
inherited from `Object.prototype` keeps the static translations and keeps the
active language among `ht`, `en`, `fr`. -/
theorem setLanguage_keeps_listed (w : World) (host : Host) (lang : String)
    (htr : w.i18n.translations = translations)
    (hcur : w.i18n.currentLang = "ht" ∨ w.i18n.currentLang = "en" ∨ w.i18n.currentLang = "fr")
    (hp : lang ∉ objectPrototypeKeys) :
    (I18nManager.setLanguage w host lang).1.i18n.translations = translations ∧
    ((I18nManager.setLanguage w host lang).1.i18n.currentLang = "ht" ∨
      (I18nManager.setLanguage w host lang).1.i18n.currentLang = "en" ∨
      (I18nManager.setLanguage w host lang).1.i18n.currentLang = "fr") := by
  by_cases hs : lang = "ht" ∨ lang = "en" ∨ lang = "fr"
  · obtain ⟨tbl, htbl⟩ := translations_lookup_supported lang hs
    have h := setLanguage_of_locale w host lang tbl (by rw [htr]; exact htbl)
    rw [h.2.1]
    exact ⟨htr, hs⟩
  · have hn : lang ≠ "ht" ∧ lang ≠ "en" ∧ lang ≠ "fr" := by
      refine ⟨fun h => hs (Or.inl h), fun h => hs (Or.inr (Or.inl h)),
        fun h => hs (Or.inr (Or.inr h))⟩
    have h := setLanguage_rejects_unknown w host lang htr hn hp
    rw [h.2.1]
    exact ⟨htr, hcur⟩

/-- Any sequence of `setLanguage` calls whose arguments avoid the names
inherited from `Object.prototype` keeps the active language among `ht`, `en`,
`fr`, whatever else the arguments are. -/
theorem setLanguages_keeps_listed (host : Host) (langs : List String)
    (hp : ∀ lang ∈ langs, lang ∉ objectPrototypeKeys) (w : World)
    (htr : w.i18n.translations = translations)
    (hcur : w.i18n.currentLang = "ht" ∨ w.i18n.currentLang = "en" ∨
      w.i18n.currentLang = "fr") :
    (I18nManager.setLanguages w host langs).i18n.currentLang = "ht" ∨
      (I18nManager.setLanguages w host langs).i18n.currentLang = "en" ∨
      (I18nManager.setLanguages w host langs).i18n.currentLang = "fr" := by
  induction langs generalizing w with
  | nil => exact hcur
  | cons lang rest ih =>
    have h := setLanguage_keeps_listed w host lang htr hcur
      (hp lang (List.mem_cons_self _ _))
    exact ih (fun l hl => hp l (List.mem_cons_of_mem _ hl)) _ h.1 h.2

theorem lookup_of_mem_keys {β : Type} (l : List (String × β)) (k : String)
    (h : k ∈ l.map Prod.fst) : ∃ v, l.lookup k = some v := by
  induction l with
  | nil => simp at h
  | cons p rest ih =>
    obtain ⟨k', v'⟩ := p
    by_cases hk : k = k'
    · subst hk
      exact ⟨v', by simp [List.lookup]⟩
    · have hne : (k == k') = false := by simpa using hk
      simp only [List.map_cons, List.mem_cons] at h
      rcases h with h | h
      · exact absurd h hk
      · obtain ⟨v, hv⟩ := ih h
        exact ⟨v, by simp only [List.lookup, hne]; exact hv⟩

theorem translations_same_keys :
    ∀ entry ∈ translations, entry.2.map Prod.fst = translations_en.map Prod.fst := by
  decide

theorem translations_keys_nodup : (translations_en.map Prod.fst).Nodup := by
  decide

theorem translations_values_not_keys :
    ∀ entry ∈ translations, ∀ kv ∈ entry.2, kv.2 ≠ kv.1 := by
  decide

/-- C13: the three static tables `ht`, `en`, `fr` list exactly the same keys
(each once), every key is mapped to a non-empty string, and hence for every
supported active language and every key defined in any of the three tables
`t(key)` returns the entry of the active table itself: a non-empty string
that is not the raw key, with no missing-translation warning. -/
theorem t_total_on_table_keys (host : Host) (cur key : String) (tbl : Table)
    (hcur : translations.lookup cur = some tbl)
    (hkey : ∃ entry ∈ translations, key ∈ entry.2.map Prod.fst) :
    (translations_ht.map Prod.fst = translations_en.map Prod.fst ∧
      translations_fr.map Prod.fst = translations_en.map Prod.fst ∧
      (translations_en.map Prod.fst).Nodup) ∧
    (∀ entry ∈ translations, ∀ kv ∈ entry.2, kv.2 ≠ "") ∧
    ∃ s, tbl.lookup key = some s ∧ s ≠ "" ∧ s ≠ key ∧
      I18nManager.t { currentLang := cur, translations := translations } host key =
        (.normal (.string s), []) := by
  refine ⟨⟨by decide, by decide, translations_keys_nodup⟩, translations_values_nonempty, ?_⟩
  have hmem := mem_of_lookup _ _ _ hcur
  obtain ⟨entry, he, hk⟩ := hkey
  have hk' : key ∈ tbl.map Prod.fst := by
    have h1 := translations_same_keys entry he
    have h2 := translations_same_keys (cur, tbl) hmem
    simp only at h2
    rw [h2, ← h1]
    exact hk
  obtain ⟨s, hs⟩ := lookup_of_mem_keys tbl key hk'
  have hne : s ≠ "" := translations_values_nonempty (cur, tbl) hmem (key, s)
    (mem_of_lookup _ _ _ hs)
  have hnk : s ≠ key := translations_values_not_keys (cur, tbl) hmem (key, s)
    (mem_of_lookup _ _ _ hs)
  exact ⟨s, hs, hne, hnk, t_of_own_entry _ host key s tbl hcur hs hne⟩

theorem t_total_on_table_keys_witness :
    translations.lookup "fr" = some translations_fr ∧
    (∃ entry ∈ translations, "msg.complete" ∈ entry.2.map Prod.fst) ∧
    ∃ s, translations_fr.lookup "msg.complete" = some s ∧ s ≠ "" ∧ s ≠ "msg.complete" ∧
      I18nManager.t { currentLang := "fr", translations := translations } quietHost
        "msg.complete" = (.normal (.string s), []) :=
  have hk : ∃ entry ∈ translations, "msg.complete" ∈ entry.2.map Prod.fst :=
    ⟨("ht", translations_ht), by decide, by decide⟩
  ⟨rfl, hk, (t_total_on_table_keys quietHost "fr" "msg.complete" translations_fr rfl hk).2.2⟩

end KreyolIA
